import Mathlib

/-!
Resume analyzer backend: upload filter, text extraction, prompt, JSON recovery.

A shallow embedding of `backend/server.js`.

* JavaScript strings are embedded as `String`; every string operation of the
  source that is used here (`endsWith`, `trim`, `match`, concatenation) looks
  only at ASCII code units or treats all code units alike, so working on
  Unicode scalar values instead of UTF-16 code units does not change a result.
* Thrown errors are embedded as `Except String _`, the string being the
  `message` of the `Error`.
* The built-ins and libraries the server calls (`String.prototype.toLowerCase`,
  `Buffer.prototype.toString`, `pdf-parse`, the Gemini client, `JSON.parse`)
  are fields of a `Host`; the server functions take the host as an argument,
  and the general theorems hold for every host.
-/

namespace ResumeAnalyzer

/-! ## Data model -/

/-- One byte of an upload buffer. -/
abbrev Byte := Fin 256

/-- The in-memory file multer hands to the handler (`req.file`). -/
structure File where
  mimetype : String
  originalname : String
  buffer : List Byte
deriving DecidableEq, Repr

/-- A number literal of a JSON text, kept exactly as `mantissa * 10 ^ exponent`
(the rounding to an IEEE double is not modelled). -/
structure JsNumber where
  mantissa : Int
  exponent : Int
deriving DecidableEq, Repr

/-- A value produced by `JSON.parse`. Object members are kept in source order. -/
inductive Json where
  | null : Json
  | bool : Bool → Json
  | num : JsNumber → Json
  | str : String → Json
  | arr : List Json → Json
  | obj : List (String × Json) → Json
deriving Repr

/-- The libraries and built-ins the server calls. -/
structure Host where
  /-- The built-in `String.prototype.toLowerCase`. -/
  toLowerCase : String → String
  /-- The call `buffer.toString('utf-8')`. -/
  utf8Decode : List Byte → String
  /-- The call `pdfParse(buffer)`: rejects with a message, or resolves to an
  object whose `text` may be missing. -/
  pdfParse : List Byte → Except String (Option String)
  /-- The three awaited calls `generateContent(prompt)`, `.response`, `.text()`:
  the raw reply, or the message of the error thrown. -/
  generateContent : String → Except String String
  /-- The built-in `JSON.parse`. -/
  jsonParse : String → Except String Json

/-- The JSON body handed to `res.json`. -/
inductive Body where
  | error : String → Body
  | errorDetails : String → String → Body
  | success : Json → Body

/-- What one request to `/api/analyze` produces: the HTTP status, the body, and
the prompts sent to the model, in order. -/
structure Outcome where
  status : Nat
  body : Body
  modelCalls : List String

/-! ## String helpers used by the server -/

/-- The character U+007B, LEFT CURLY BRACKET. -/
def lbrace : Char := Char.ofNat 0x7b

/-- The character U+007D, RIGHT CURLY BRACKET. -/
def rbrace : Char := Char.ofNat 0x7d

/-- The method `String.prototype.endsWith`. -/
def endsWith (s suffix : String) : Bool :=
  suffix.data.isSuffixOf s.data

/-- ECMAScript `WhiteSpace` and `LineTerminator` code points, the set that
`String.prototype.trim` strips. -/
def isWhiteSpace (c : Char) : Bool :=
  let n := c.toNat
  n = 0x09 || n = 0x0A || n = 0x0B || n = 0x0C || n = 0x0D || n = 0x20 ||
  n = 0xA0 || n = 0x1680 || (0x2000 ≤ n && n ≤ 0x200A) || n = 0x2028 ||
  n = 0x2029 || n = 0x202F || n = 0x205F || n = 0x3000 || n = 0xFEFF

/-- The method `String.prototype.trim`. -/
def trim (s : String) : String :=
  String.mk ((s.data.dropWhile isWhiteSpace).reverse.dropWhile isWhiteSpace).reverse

/-- The test `!s || s.trim().length === 0` on a string `s`. -/
def isBlank (s : String) : Bool :=
  s.data.isEmpty || (trim s).data.length == 0

/-! ## Upload filter -/

/-- The array `allowedTypes` of `fileFilter`. -/
def allowedTypes : List String := ["application/pdf", "text/plain"]

/-- The multer `fileFilter`: `cb(null, true)` is `.ok true`, `cb(new Error(m))`
is `.error m`. -/
def fileFilter (h : Host) (file : File) : Except String Bool :=
  let fileName := h.toLowerCase file.originalname
  if allowedTypes.contains file.mimetype ||
      endsWith fileName ".pdf" ||
      endsWith fileName ".txt" then
    .ok true
  else
    .error "Only PDF and TXT files are allowed"

/-! ## Text extraction -/

/-- The function `extractText`. In the PDF branch every throw inside the `try`
(the rejection of `pdfParse` as well as the explicit "No readable text" throw)
lands in the `catch`, which throws `Failed to parse PDF file`. -/
def extractText (h : Host) (file : File) : Except String String :=
  let fileName := h.toLowerCase file.originalname
  if file.mimetype = "application/pdf" || endsWith fileName ".pdf" then
    match h.pdfParse file.buffer with
    | .error _ => .error "Failed to parse PDF file"
    | .ok none => .error "Failed to parse PDF file"
    | .ok (some text) =>
      if text.data.isEmpty || (trim text).data.length == 0 then
        .error "Failed to parse PDF file"
      else
        .ok text
  else
    .ok (h.utf8Decode file.buffer)

/-! ## Prompt -/

/-- The template literal `prompt` of the handler, `resumeText` interpolated. -/
def prompt (resumeText : String) : String :=
  s!"Analyze the following resume and provide detailed feedback in JSON format with these sections:\n    1. overall_score (0-100)\n    2. strengths (array of 3-5 key strengths)\n    3. weaknesses (array of 3-5 areas for improvement)\n    4. suggestions (array of 3-5 specific actionable suggestions)\n    5. keywords_missing (array of important industry keywords that could be added)\n    6. summary (brief overall assessment in 2-3 sentences)\n\n    Resume content:\n    {resumeText}\n\n    Return ONLY valid JSON, no additional text."

/-! ## JSON recovery

The regular expression is `\{[\s\S]*\}`, without flags: a left brace, then as
many code units as possible (`[\s\S]` matches every code unit and `*` is
greedy), then a right brace. `String.prototype.match` tries the start positions
from left to right and returns the first match. -/

/-- Match `[\s\S]*\}` at the head of the input, greedily: the alternative that
consumes one more unit is tried first, the closing brace only when that fails.
Returns the text matched. -/
def matchRest : List Char → Option (List Char)
  | [] => none
  | c :: cs =>
    match matchRest cs with
    | some m => some (c :: m)
    | none => if c = rbrace then some [c] else none

/-- Match the whole expression at the head of the input. -/
def matchHere : List Char → Option (List Char)
  | [] => none
  | c :: cs => if c = lbrace then (matchRest cs).map (c :: ·) else none

/-- Try the start positions from left to right. -/
def matchFrom : List Char → Option (List Char)
  | [] => none
  | c :: cs =>
    match matchHere (c :: cs) with
    | some m => some m
    | none => matchFrom cs

/-- The value of `text.match(/\{[\s\S]*\}/)`: `none` is `null`, `some m` is a
match array whose element `0` is `m`. -/
def jsonMatch (text : String) : Option String :=
  (matchFrom text.data).map String.mk

/-- The text handed to `JSON.parse`: `jsonMatch[0]` when there is a match, the
whole `text` otherwise. -/
def candidate (text : String) : String :=
  match jsonMatch text with
  | some m => m
  | none => text

/-- The body of the inner `try`: `jsonMatch ? JSON.parse(jsonMatch[0]) :
JSON.parse(text)`. -/
def recover (h : Host) (text : String) : Except String Json :=
  match jsonMatch text with
  | some m => h.jsonParse m
  | none => h.jsonParse text

/-! ## The handler of `POST /api/analyze` -/

/-- The handler, after multer has run: `file` is `req.file`. A plain
`res.json` answers with status 200. -/
def analyze (h : Host) (file : Option File) : Outcome :=
  match file with
  | none => ⟨400, .error "No file uploaded", []⟩
  | some file =>
    match extractText h file with
    | .error message => ⟨500, .errorDetails "Failed to analyze resume" message, []⟩
    | .ok resumeText =>
      if isBlank resumeText then
        ⟨400, .error "Could not extract text from file", []⟩
      else
        match h.generateContent (prompt resumeText) with
        | .error message =>
          ⟨500, .errorDetails "Failed to analyze resume" message, [prompt resumeText]⟩
        | .ok text =>
          match recover h text with
          | .error _ =>
            ⟨500, .error "AI returned invalid JSON format", [prompt resumeText]⟩
          | .ok analysis => ⟨200, .success analysis, [prompt resumeText]⟩

/-! ## A reference host

Concrete stand-ins for the built-ins, used to evaluate the server on concrete
requests. `refJsonParse` follows the JSON grammar of ECMA-404, which is the
grammar `JSON.parse` accepts. -/

/-- The character U+0022, QUOTATION MARK. -/
def dquote : Char := Char.ofNat 0x22

/-- The character U+005C, REVERSE SOLIDUS. -/
def bslash : Char := Char.ofNat 0x5c

/-- JSON insignificant whitespace: space, tab, line feed, carriage return. -/
def isJsonWs (c : Char) : Bool :=
  c = ' ' || c = '\t' || c = '\n' || c = '\r'

/-- Drop leading JSON whitespace. -/
def skipWs (cs : List Char) : List Char := cs.dropWhile isJsonWs

/-- The value of one hexadecimal digit. -/
def hexVal (c : Char) : Option Nat :=
  let n := c.toNat
  if 48 ≤ n && n ≤ 57 then some (n - 48)
  else if 97 ≤ n && n ≤ 102 then some (n - 87)
  else if 65 ≤ n && n ≤ 70 then some (n - 55)
  else none

/-- Four hexadecimal digits, as after `\u`. -/
def parseHex4 : List Char → Option (Nat × List Char)
  | a :: b :: c :: d :: rest => do
    let x ← hexVal a
    let y ← hexVal b
    let z ← hexVal c
    let w ← hexVal d
    pure (((x * 16 + y) * 16 + z) * 16 + w, rest)
  | _ => none

/-- The character of a single-letter escape. -/
def simpleEscape (c : Char) : Option Char :=
  if c = dquote then some dquote
  else if c = bslash then some bslash
  else if c = '/' then some '/'
  else if c = 'b' then some (Char.ofNat 0x08)
  else if c = 'f' then some (Char.ofNat 0x0c)
  else if c = 'n' then some '\n'
  else if c = 'r' then some '\r'
  else if c = 't' then some '\t'
  else none

/-- The characters of a string literal after its opening quote, up to the
closing quote. A `\u` escape pair forming a surrogate pair gives one character;
a lone surrogate escape, which a `String` cannot hold, gives U+FFFD. -/
def parseStringBody : Nat → List Char → List Char → Option (String × List Char)
  | 0, _, _ => none
  | _ + 1, [], _ => none
  | n + 1, c :: rest, acc =>
    if c = dquote then some (String.mk acc.reverse, rest)
    else if c = bslash then
      match rest with
      | [] => none
      | e :: rest1 =>
        if e = 'u' then
          match parseHex4 rest1 with
          | none => none
          | some (u, rest2) =>
            if 0xD800 ≤ u && u ≤ 0xDBFF then
              match rest2 with
              | b :: v :: rest3 =>
                if b = bslash && v = 'u' then
                  match parseHex4 rest3 with
                  | some (lo, rest4) =>
                    if 0xDC00 ≤ lo && lo ≤ 0xDFFF then
                      parseStringBody n rest4
                        (Char.ofNat (0x10000 + (u - 0xD800) * 0x400 + (lo - 0xDC00)) :: acc)
                    else parseStringBody n rest2 (Char.ofNat 0xFFFD :: acc)
                  | none => none
                else parseStringBody n rest2 (Char.ofNat 0xFFFD :: acc)
              | _ => parseStringBody n rest2 (Char.ofNat 0xFFFD :: acc)
            else if 0xDC00 ≤ u && u ≤ 0xDFFF then
              parseStringBody n rest2 (Char.ofNat 0xFFFD :: acc)
            else parseStringBody n rest2 (Char.ofNat u :: acc)
        else
          match simpleEscape e with
          | some x => parseStringBody n rest1 (x :: acc)
          | none => none
    else if c.toNat < 0x20 then none
    else parseStringBody n rest (c :: acc)

/-- The value of a run of decimal digits. -/
def digitsVal (ds : List Char) : Nat :=
  ds.foldl (fun a d => 10 * a + (d.toNat - 48)) 0

/-- A number literal: `-? (0 | [1-9][0-9]*) (. [0-9]+)? ([eE] [+-]? [0-9]+)?`. -/
def parseNumber (cs : List Char) : Option (JsNumber × List Char) :=
  let (neg, cs1) := match cs with
    | c :: r => if c = '-' then (true, r) else (false, cs)
    | [] => (false, cs)
  let (ip, cs2) := cs1.span Char.isDigit
  if ip.isEmpty || (ip.head? = some '0' && 1 < ip.length) then none
  else
    let frac : Option (List Char × List Char) := match cs2 with
      | c :: r =>
        if c = '.' then
          let (f, r1) := r.span Char.isDigit
          if f.isEmpty then none else some (f, r1)
        else some ([], cs2)
      | [] => some ([], cs2)
    match frac with
    | none => none
    | some (fp, cs3) =>
      let expo : Option (Int × List Char) := match cs3 with
        | c :: r =>
          if c = 'e' || c = 'E' then
            let (sgn, r1) := match r with
              | s :: r2 => if s = '-' then (true, r2) else if s = '+' then (false, r2) else (false, r)
              | [] => (false, r)
            let (ds, r3) := r1.span Char.isDigit
            if ds.isEmpty then none
            else some (if sgn then -(digitsVal ds : Int) else (digitsVal ds : Int), r3)
          else some (0, cs3)
        | [] => some (0, cs3)
      match expo with
      | none => none
      | some (ex, cs4) =>
        let m : Int := digitsVal (ip ++ fp)
        some (⟨if neg then -m else m, ex - fp.length⟩, cs4)

/-- Consume the characters `lit` at the head of the input. -/
def expectLit (lit cs : List Char) : Option (List Char) :=
  if lit.isPrefixOf cs then some (cs.drop lit.length) else none

mutual
/-- One JSON value, leading whitespace allowed; returns the rest of the input. -/
def parseValue : Nat → List Char → Option (Json × List Char)
  | 0, _ => none
  | n + 1, cs =>
    match skipWs cs with
    | [] => none
    | c :: rest =>
      if c = lbrace then
        match skipWs rest with
        | [] => none
        | d :: rest1 =>
          if d = rbrace then some (.obj [], rest1) else parseMembers n (d :: rest1) []
      else if c = '[' then
        match skipWs rest with
        | [] => none
        | d :: rest1 =>
          if d = ']' then some (.arr [], rest1) else parseElems n (d :: rest1) []
      else if c = dquote then
        (parseStringBody (rest.length + 1) rest []).map (fun p => (.str p.1, p.2))
      else if c = 't' then (expectLit "rue".data rest).map (fun r => (.bool true, r))
      else if c = 'f' then (expectLit "alse".data rest).map (fun r => (.bool false, r))
      else if c = 'n' then (expectLit "ull".data rest).map (fun r => (.null, r))
      else (parseNumber (c :: rest)).map (fun p => (.num p.1, p.2))
/-- The elements of an array after `[`, the array being non-empty. -/
def parseElems : Nat → List Char → List Json → Option (Json × List Char)
  | 0, _, _ => none
  | n + 1, cs, acc =>
    match parseValue n cs with
    | none => none
    | some (v, rest) =>
      match skipWs rest with
      | [] => none
      | d :: rest1 =>
        if d = ',' then parseElems n rest1 (v :: acc)
        else if d = ']' then some (.arr (v :: acc).reverse, rest1)
        else none
/-- The members of an object after `{`, the object being non-empty. -/
def parseMembers : Nat → List Char → List (String × Json) → Option (Json × List Char)
  | 0, _, _ => none
  | n + 1, cs, acc =>
    match skipWs cs with
    | [] => none
    | q :: rest =>
      if q = dquote then
        match parseStringBody (rest.length + 1) rest [] with
        | none => none
        | some (k, rest1) =>
          match skipWs rest1 with
          | [] => none
          | colon :: rest2 =>
            if colon = ':' then
              match parseValue n rest2 with
              | none => none
              | some (v, rest3) =>
                match skipWs rest3 with
                | [] => none
                | d :: rest4 =>
                  if d = ',' then parseMembers n rest4 ((k, v) :: acc)
                  else if d = rbrace then some (.obj ((k, v) :: acc).reverse, rest4)
                  else none
            else none
      else none
end

/-- A JSON text: one value, whitespace around it, nothing else. A syntax error
is the thrown `SyntaxError`. -/
def refJsonParse (s : String) : Except String Json :=
  match parseValue (2 * s.data.length + 2) s.data with
  | none => .error "SyntaxError"
  | some (v, rest) => if (skipWs rest).isEmpty then .ok v else .error "SyntaxError"

/-- Lower-casing of the letters `A` to `Z`, every other character kept: what
`toLowerCase` does on a string of ASCII characters. -/
def asciiToLowerCase (s : String) : String :=
  String.mk (s.data.map Char.toLower)

/-- The first byte of a UTF-8 sequence: the character it stands for by itself
(U+FFFD for a byte that cannot start a sequence), or the pending sequence
`(code point so far, bytes needed, lower bound, upper bound of the next byte)`. -/
def utf8Start (b : Nat) : Char ⊕ (Nat × Nat × Nat × Nat) :=
  if b ≤ 0x7F then .inl (Char.ofNat b)
  else if 0xC2 ≤ b && b ≤ 0xDF then .inr (b % 32, 1, 0x80, 0xBF)
  else if 0xE0 ≤ b && b ≤ 0xEF then
    .inr (b % 16, 2, if b = 0xE0 then 0xA0 else 0x80, if b = 0xED then 0x9F else 0xBF)
  else if 0xF0 ≤ b && b ≤ 0xF4 then
    .inr (b % 8, 3, if b = 0xF0 then 0x90 else 0x80, if b = 0xF4 then 0x8F else 0xBF)
  else .inl (Char.ofNat 0xFFFD)

/-- The UTF-8 decoder with replacement: an ill-formed sequence gives U+FFFD and
the byte that broke it is decoded again as a first byte. -/
def utf8Loop : Option (Nat × Nat × Nat × Nat) → List Byte → List Char
  | none, [] => []
  | some _, [] => [Char.ofNat 0xFFFD]
  | none, b :: bs =>
    match utf8Start b.val with
    | .inl c => c :: utf8Loop none bs
    | .inr st => utf8Loop (some st) bs
  | some (cp, needed, lo, hi), b :: bs =>
    if lo ≤ b.val && b.val ≤ hi then
      if needed = 1 then Char.ofNat (cp * 64 + b.val % 64) :: utf8Loop none bs
      else utf8Loop (some (cp * 64 + b.val % 64, needed - 1, 0x80, 0xBF)) bs
    else
      Char.ofNat 0xFFFD ::
        (match utf8Start b.val with
         | .inl c => c :: utf8Loop none bs
         | .inr st => utf8Loop (some st) bs)

/-- Decoding of a buffer as UTF-8. -/
def refUtf8Decode (bs : List Byte) : String :=
  String.mk (utf8Loop none bs)

/-- A host with test doubles for the two external services: `pdfParse` settles
with `pdf` and the model client with `reply`, whatever they are given. -/
def stubHost (pdf : Except String (Option String)) (reply : Except String String) : Host where
  toLowerCase := asciiToLowerCase
  utf8Decode := refUtf8Decode
  pdfParse := fun _ => pdf
  generateContent := fun _ => reply
  jsonParse := refJsonParse

/-- The reference host with both external services down: the PDF decoder
rejects every buffer and the model client fails. -/
def refHost : Host :=
  stubHost (.error "Invalid PDF structure") (.error "fetch failed")

/-- The bytes of the ASCII text `Jane Doe`. -/
def janeDoe : List Byte := [0x4a, 0x61, 0x6e, 0x65, 0x20, 0x44, 0x6f, 0x65]

/-- The part of the template literal before `resumeText`. -/
def promptHead : String :=
  "Analyze the following resume and provide detailed feedback in JSON format with these sections:\n    1. overall_score (0-100)\n    2. strengths (array of 3-5 key strengths)\n    3. weaknesses (array of 3-5 areas for improvement)\n    4. suggestions (array of 3-5 specific actionable suggestions)\n    5. keywords_missing (array of important industry keywords that could be added)\n    6. summary (brief overall assessment in 2-3 sentences)\n\n    Resume content:\n    "

/-- The part of the template literal after `resumeText`. -/
def promptTail : String :=
  "\n\n    Return ONLY valid JSON, no additional text."

/-! ## Notions of the specification -/

/-- The property `length` of a JavaScript string: its number of UTF-16 code
units. -/
def jsLength (s : String) : Nat :=
  (s.data.map (fun c => if c.toNat < 0x10000 then 1 else 2)).sum

/-- The member `key` of an object, the last one when the key is repeated. -/
def Json.getField (key : String) : Json → Option Json
  | .obj members => (members.reverse.find? (fun kv => kv.1 == key)).map (fun kv => kv.2)
  | _ => none

/-- The integer a number literal denotes, when it denotes one. -/
def JsNumber.toInt? (x : JsNumber) : Option Int :=
  if 0 ≤ x.exponent then some (x.mantissa * 10 ^ x.exponent.toNat)
  else if x.mantissa % (10 ^ (-x.exponent).toNat) = 0 then
    some (x.mantissa / 10 ^ (-x.exponent).toNat)
  else none

/-- A JSON string value. -/
def Json.isStr : Json → Bool
  | .str _ => true
  | _ => false

/-- A sequence of strings whose length lies between `lo` and `hi`. -/
def Json.isStrings (lo hi : Nat) : Option Json → Bool
  | some (.arr xs) => xs.all Json.isStr && decide (lo ≤ xs.length) && decide (xs.length ≤ hi)
  | _ => false

/-- An integer between 0 and 100. -/
def Json.isScore : Option Json → Bool
  | some (.num x) =>
    match x.toInt? with
    | some n => decide (0 ≤ n) && decide (n ≤ 100)
    | none => false
  | _ => false

/-- Following the specification: `AnalysisSchema`, an object whose
`overall_score` is an integer between 0 and 100, whose `strengths`,
`weaknesses` and `suggestions` are sequences of 3 to 5 strings, whose
`keywords_missing` is a sequence of strings and whose `summary` is a string. -/
def conformsToSchema (v : Json) : Bool :=
  Json.isScore (v.getField "overall_score") &&
  Json.isStrings 3 5 (v.getField "strengths") &&
  Json.isStrings 3 5 (v.getField "weaknesses") &&
  Json.isStrings 3 5 (v.getField "suggestions") &&
  (match v.getField "keywords_missing" with
   | some (.arr xs) => xs.all Json.isStr
   | _ => false) &&
  (match v.getField "summary" with
   | some (.str _) => true
   | _ => false)

/-- Following the specification: the substring of `text` running from its first
left brace to its last right brace, both included. -/
def braceSpan (text : String) : String :=
  String.mk
    (((text.data.dropWhile (fun c => c != lbrace)).reverse.dropWhile
      (fun c => c != rbrace)).reverse)

/-- The raw model text of the specification's recovery example. -/
def specExample : String :=
  "Sure! Here's the analysis: \x7b\"overall_score\": 72, \"strengths\": [\"a\",\"b\",\"c\"], \"weaknesses\": [\"x\"], \"suggestions\": [\"y\"], \"keywords_missing\": [], \"summary\": \"ok\"\x7d Hope this helps!"

/-! ## The regular expression match -/

theorem lbrace_ne_rbrace : lbrace ≠ rbrace := by decide

theorem matchRest_eq_none_iff (cs : List Char) : matchRest cs = none ↔ rbrace ∉ cs := by
  induction cs with
  | nil => simp [matchRest]
  | cons c cs ih =>
    rw [matchRest]
    cases hr : matchRest cs with
    | none =>
      have hcs : rbrace ∉ cs := ih.mp hr
      by_cases hc : c = rbrace
      · simp [hc]
      · have hc2 : ¬ rbrace = c := fun e => hc e.symm
        simp [hc, hc2, hcs]
    | some m =>
      have hcs : rbrace ∈ cs := by
        by_contra hn
        rw [ih.mpr hn] at hr
        exact absurd hr (by simp)
      simp [hcs]

theorem matchRest_append (mid : List Char) {post : List Char} (h : rbrace ∉ post) :
    matchRest (mid ++ rbrace :: post) = some (mid ++ [rbrace]) := by
  induction mid with
  | nil => simp [matchRest, (matchRest_eq_none_iff post).mpr h]
  | cons c mid ih => simp [matchRest, ih]

theorem matchRest_some {cs m : List Char} (h : matchRest cs = some m) :
    ∃ mid post, cs = mid ++ rbrace :: post ∧ rbrace ∉ post ∧ m = mid ++ [rbrace] := by
  induction cs generalizing m with
  | nil => simp [matchRest] at h
  | cons c cs ih =>
    rw [matchRest] at h
    cases hr : matchRest cs with
    | some m1 =>
      rw [hr] at h
      obtain ⟨mid, post, h1, h2, h3⟩ := ih hr
      simp only [Option.some.injEq] at h
      exact ⟨c :: mid, post, by simp [h1], h2, by simp [← h, h3]⟩
    | none =>
      rw [hr] at h
      have hcs : rbrace ∉ cs := (matchRest_eq_none_iff cs).mp hr
      by_cases hc : c = rbrace
      · simp only [hc, if_true, Option.some.injEq] at h
        exact ⟨[], cs, by simp [hc], hcs, by simp [← h]⟩
      · simp [hc] at h

theorem matchFrom_append {pre : List Char} (mid : List Char) {post : List Char}
    (hpre : lbrace ∉ pre) (hpost : rbrace ∉ post) :
    matchFrom (pre ++ lbrace :: (mid ++ rbrace :: post)) = some (lbrace :: (mid ++ [rbrace])) := by
  induction pre with
  | nil => simp [matchFrom, matchHere, matchRest_append mid hpost]
  | cons c pre ih =>
    have hc : c ≠ lbrace := fun e => hpre (by simp [e])
    have hp : lbrace ∉ pre := fun m => hpre (List.mem_cons_of_mem _ m)
    simp [matchFrom, matchHere, hc, ih hp]

theorem matchFrom_some {cs m : List Char} (h : matchFrom cs = some m) :
    ∃ pre mid post, cs = pre ++ lbrace :: (mid ++ rbrace :: post) ∧ lbrace ∉ pre ∧
      rbrace ∉ post ∧ m = lbrace :: (mid ++ [rbrace]) := by
  induction cs generalizing m with
  | nil => simp [matchFrom] at h
  | cons c cs ih =>
    rw [matchFrom] at h
    by_cases hc : c = lbrace
    · cases hr : matchRest cs with
      | some m1 =>
        obtain ⟨mid, post, h1, h2, h3⟩ := matchRest_some hr
        simp only [matchHere, hc, if_true, hr, Option.map_some'] at h
        simp only [Option.some.injEq] at h
        exact ⟨[], mid, post, by simp [hc, h1], by simp, h2, by simp [← h, h3]⟩
      | none =>
        simp only [matchHere, hc, if_true, hr, Option.map_none'] at h
        obtain ⟨pre, mid, post, h1, -, h3, -⟩ := ih h
        have : rbrace ∈ cs := by simp [h1]
        exact absurd this ((matchRest_eq_none_iff cs).mp hr)
    · simp only [matchHere, hc, if_false] at h
      obtain ⟨pre, mid, post, h1, h2, h3, h4⟩ := ih h
      have hc2 : ¬ lbrace = c := fun e => hc e.symm
      exact ⟨c :: pre, mid, post, by simp [h1], by simp [hc2, h2], h3, h4⟩

theorem matchFrom_ne_none (pre : List Char) {rest : List Char} (h : rbrace ∈ rest) :
    matchFrom (pre ++ lbrace :: rest) ≠ none := by
  induction pre with
  | nil =>
    cases hr : matchRest rest with
    | none => exact absurd h ((matchRest_eq_none_iff rest).mp hr)
    | some m => simp [matchFrom, matchHere, hr]
  | cons c pre ih =>
    rw [List.cons_append, matchFrom]
    cases matchHere (c :: (pre ++ lbrace :: rest)) with
    | none => exact ih
    | some m => simp

theorem matchFrom_eq_none_iff (cs : List Char) :
    matchFrom cs = none ↔
      ∀ pre mid post, cs ≠ pre ++ lbrace :: (mid ++ rbrace :: post) := by
  constructor
  · intro h pre mid post e
    rw [e] at h
    exact matchFrom_ne_none pre (by simp) h
  · intro h
    cases hm : matchFrom cs with
    | none => rfl
    | some m =>
      obtain ⟨pre, mid, post, h1, -, -, -⟩ := matchFrom_some hm
      exact absurd h1 (h pre mid post)

theorem dropWhile_append_stop {p : Char → Bool} {a : Char} (l r : List Char)
    (hl : ∀ x ∈ l, p x = true) (ha : p a = false) :
    (l ++ a :: r).dropWhile p = a :: r := by
  induction l with
  | nil => simp [List.dropWhile, ha]
  | cons c l ih =>
    have hc : p c = true := hl c (by simp)
    simp only [List.cons_append, List.dropWhile, hc]
    exact ih (fun x hx => hl x (List.mem_cons_of_mem _ hx))

theorem dropWhile_first_lbrace {pre : List Char} (rest : List Char) (hpre : lbrace ∉ pre) :
    (pre ++ lbrace :: rest).dropWhile (fun c => c != lbrace) = lbrace :: rest := by
  apply dropWhile_append_stop
  · intro x hx
    have : x ≠ lbrace := fun e => hpre (e ▸ hx)
    simp [this]
  · simp

theorem mem_dropWhile_after (pre : List Char) {rest : List Char} {x : Char} (hx : x ∈ rest) :
    x ∈ (pre ++ lbrace :: rest).dropWhile (fun c => c != lbrace) := by
  induction pre with
  | nil => simp [List.dropWhile, hx]
  | cons c pre ih =>
    by_cases hc : c = lbrace
    · simp [List.dropWhile, hc, hx]
    · have hp : (c != lbrace) = true := by simp [hc]
      simp only [List.cons_append, List.dropWhile_cons, hp, if_true]
      exact ih

theorem span_of_decomposition {pre : List Char} (mid : List Char) {post : List Char}
    (hpre : lbrace ∉ pre) (hpost : rbrace ∉ post) :
    (((pre ++ lbrace :: (mid ++ rbrace :: post)).dropWhile (fun c => c != lbrace)).reverse.dropWhile
      (fun c => c != rbrace)).reverse = lbrace :: (mid ++ [rbrace]) := by
  rw [dropWhile_first_lbrace _ hpre]
  have e : (lbrace :: (mid ++ rbrace :: post)).reverse
      = post.reverse ++ rbrace :: (lbrace :: mid).reverse := by simp
  rw [e, dropWhile_append_stop]
  · simp
  · intro x hx
    have : x ≠ rbrace := fun e => hpost (by simpa [e] using hx)
    simp [this]
  · simp

theorem decomposition_of_mem {cs : List Char}
    (h : rbrace ∈ cs.dropWhile (fun c => c != lbrace)) :
    ∃ pre mid post, cs = pre ++ lbrace :: (mid ++ rbrace :: post) ∧ lbrace ∉ pre ∧
      rbrace ∉ post := by
  cases hm : matchFrom cs with
  | some m =>
    obtain ⟨pre, mid, post, h1, h2, h3, -⟩ := matchFrom_some hm
    exact ⟨pre, mid, post, h1, h2, h3⟩
  | none =>
    exfalso
    have hsplit := List.takeWhile_append_dropWhile (fun c => c != lbrace) cs
    cases hd : cs.dropWhile (fun c => c != lbrace) with
    | nil => simp [hd] at h
    | cons d rest =>
      have hd0 : d = lbrace := by
        have := List.head_dropWhile_not (fun c => c != lbrace) cs (by simp [hd])
        simpa [hd] using this
      rw [hd] at h hsplit
      subst hd0
      have hr : rbrace ∈ rest := by
        rcases List.mem_cons.mp h with e | e
        · exact absurd e.symm lbrace_ne_rbrace
        · exact e
      exact matchFrom_ne_none _ hr (hsplit ▸ hm)

theorem candidate_of_match {text : String} {m : List Char} (h : matchFrom text.data = some m) :
    jsonMatch text = some (String.mk m) ∧ candidate text = String.mk m := by
  simp [candidate, jsonMatch, h]

theorem candidate_of_no_match {text : String} (h : matchFrom text.data = none) :
    jsonMatch text = none ∧ candidate text = text := by
  simp [candidate, jsonMatch, h]

theorem recover_eq (h : Host) (text : String) :
    recover h text = h.jsonParse (candidate text) := by
  unfold recover candidate
  cases jsonMatch text <;> rfl

/-! ## Claims on the recovery step -/

/-- C10, as stated, fails: the text made of a right brace followed by a left
brace contains both braces, yet the candidate handed to the decoder is the
whole text and not the span from the first left brace to the last right brace
(which is empty). -/
theorem candidate_reversed_braces :
    lbrace ∈ "\x7d\x7b".data ∧ rbrace ∈ "\x7d\x7b".data ∧
      candidate "\x7d\x7b" = "\x7d\x7b" ∧ braceSpan "\x7d\x7b" = "" ∧
      candidate "\x7d\x7b" ≠ braceSpan "\x7d\x7b" := by
  decide

/-- C10 (amended): for every raw text in which a right brace occurs after the
first left brace, the regular expression matches and the candidate is the
substring from the first left brace to the last right brace, both included;
for every other raw text there is no match and the candidate is the entire raw
text. -/
theorem candidate_first_to_last (text : String) :
    (rbrace ∈ text.data.dropWhile (fun c => c != lbrace) →
      jsonMatch text = some (braceSpan text) ∧ candidate text = braceSpan text ∧
      ∃ pre mid post, text.data = pre ++ lbrace :: (mid ++ rbrace :: post) ∧
        lbrace ∉ pre ∧ rbrace ∉ post ∧ (candidate text).data = lbrace :: (mid ++ [rbrace])) ∧
    (rbrace ∉ text.data.dropWhile (fun c => c != lbrace) →
      jsonMatch text = none ∧ candidate text = text) := by
  constructor
  · intro h
    obtain ⟨pre, mid, post, h1, h2, h3⟩ := decomposition_of_mem h
    have hm : matchFrom text.data = some (lbrace :: (mid ++ [rbrace])) := by
      rw [h1]; exact matchFrom_append mid h2 h3
    have hs : braceSpan text = String.mk (lbrace :: (mid ++ [rbrace])) := by
      unfold braceSpan
      rw [h1, span_of_decomposition mid h2 h3]
    obtain ⟨c1, c2⟩ := candidate_of_match hm
    exact ⟨by rw [hs]; exact c1, by rw [hs]; exact c2, pre, mid, post, h1, h2, h3, by rw [c2]⟩
  · intro h
    apply candidate_of_no_match
    rw [matchFrom_eq_none_iff]
    intro pre mid post e
    exact h (e ▸ mem_dropWhile_after pre (by simp))

/-- Witness for C10 (amended): a reply wrapped in prose, and a reply without
braces. -/
theorem candidate_first_to_last_witness :
    candidate "ok \x7b\"a\": \x7b\x7d\x7d bye" = braceSpan "ok \x7b\"a\": \x7b\x7d\x7d bye" ∧
      braceSpan "ok \x7b\"a\": \x7b\x7d\x7d bye" = "\x7b\"a\": \x7b\x7d\x7d" ∧
      candidate "no braces" = "no braces" :=
  ⟨((candidate_first_to_last "ok \x7b\"a\": \x7b\x7d\x7d bye").1 (by decide)).2.1, by decide,
    ((candidate_first_to_last "no braces").2 (by decide)).2⟩

/-- C3, as stated, fails: prose that itself contains a brace pair in front of
a valid JSON object makes the brace span start in the prose, and the decoder
rejects it. -/
theorem recover_brace_in_prose :
    refHost.jsonParse "\x7b\"overall_score\": 72\x7d"
        = .ok (.obj [("overall_score", .num ⟨72, 0⟩)]) ∧
      recover refHost
        ("Here is the JSON \x7bas requested\x7d: " ++ "\x7b\"overall_score\": 72\x7d" ++ " Done.")
        = .error "SyntaxError" :=
  ⟨rfl, rfl⟩

set_option maxRecDepth 100000 in
/-- C3 (amended): for every raw response `pre ++ obj ++ post` in which `obj`
starts with a left brace, ends with a right brace and is accepted by the
decoder, `pre` holds no left brace and `post` holds no right brace, the
candidate is `obj`, recovery succeeds with exactly the value decoded from
`obj`, and recovery of the wrapped text and of `obj` alone agree; the
specification's example yields an object whose `overall_score` is 72. -/
theorem recover_wrapped_object (h : Host) (pre obj post : String) (mid : List Char) (v : Json)
    (hobj : obj.data = lbrace :: (mid ++ [rbrace])) (hvalid : h.jsonParse obj = .ok v)
    (hpre : lbrace ∉ pre.data) (hpost : rbrace ∉ post.data) :
    candidate (pre ++ obj ++ post) = obj ∧
      recover h (pre ++ obj ++ post) = .ok v ∧
      recover h (pre ++ obj ++ post) = recover h obj ∧
      (recover refHost specExample).toOption.bind (Json.getField "overall_score")
        = some (.num ⟨72, 0⟩) := by
  have e1 : (pre ++ obj ++ post).data = pre.data ++ lbrace :: (mid ++ rbrace :: post.data) := by
    simp [String.data_append, hobj]
  have c1 : candidate (pre ++ obj ++ post) = obj := by
    have hm := matchFrom_append mid hpre hpost
    rw [← e1] at hm
    rw [(candidate_of_match hm).2, ← hobj]
  have e2 : obj.data = [] ++ lbrace :: (mid ++ rbrace :: []) := by simp [hobj]
  have c2 : candidate obj = obj := by
    have hm := @matchFrom_append [] mid [] (by simp) (by simp)
    rw [← e2] at hm
    rw [(candidate_of_match hm).2, ← hobj]
  refine ⟨c1, ?_, ?_, rfl⟩
  · rw [recover_eq, c1, hvalid]
  · rw [recover_eq, recover_eq, c1, c2]

set_option maxRecDepth 100000 in
/-- Witness for C3 (amended): the specification's example. -/
theorem recover_wrapped_object_witness :
    recover refHost
      ("Sure! Here's the analysis: " ++
        "\x7b\"overall_score\": 72, \"strengths\": [\"a\",\"b\",\"c\"], \"weaknesses\": [\"x\"], \"suggestions\": [\"y\"], \"keywords_missing\": [], \"summary\": \"ok\"\x7d" ++
        " Hope this helps!")
      = .ok (.obj [("overall_score", .num ⟨72, 0⟩),
          ("strengths", .arr [.str "a", .str "b", .str "c"]),
          ("weaknesses", .arr [.str "x"]), ("suggestions", .arr [.str "y"]),
          ("keywords_missing", .arr []), ("summary", .str "ok")]) :=
  (recover_wrapped_object refHost "Sure! Here's the analysis: "
    "\x7b\"overall_score\": 72, \"strengths\": [\"a\",\"b\",\"c\"], \"weaknesses\": [\"x\"], \"suggestions\": [\"y\"], \"keywords_missing\": [], \"summary\": \"ok\"\x7d"
    " Hope this helps!"
    "\"overall_score\": 72, \"strengths\": [\"a\",\"b\",\"c\"], \"weaknesses\": [\"x\"], \"suggestions\": [\"y\"], \"keywords_missing\": [], \"summary\": \"ok\"".data
    _ rfl rfl (by decide) (by decide)).2.1

/-! ## The handler, case by case -/

theorem isBlank_of_all_whiteSpace {t : String} (h : ∀ c ∈ t.data, isWhiteSpace c = true) :
    isBlank t = true := by
  have h1 : t.data.dropWhile isWhiteSpace = [] := List.dropWhile_eq_nil_iff.mpr h
  simp [isBlank, trim, h1]

theorem all_whiteSpace_of_isBlank {t : String} (h : isBlank t = true) :
    ∀ c ∈ t.data, isWhiteSpace c = true := by
  simp only [isBlank, trim, Bool.or_eq_true, List.isEmpty_iff, beq_iff_eq, List.length_eq_zero,
    List.reverse_eq_nil_iff] at h
  rcases h with h | h
  · simp [h]
  · rw [List.dropWhile_eq_nil_iff] at h
    cases hd : t.data.dropWhile isWhiteSpace with
    | nil => exact List.dropWhile_eq_nil_iff.mp hd
    | cons d rest =>
      have hn := List.head_dropWhile_not isWhiteSpace t.data (by simp [hd])
      have hw := h d (by simp [hd])
      simp [hd] at hn
      rw [hn] at hw
      exact absurd hw (by simp)

theorem analyze_extract_error {h : Host} {file : File} {m : String}
    (hx : extractText h file = .error m) :
    analyze h (some file) = ⟨500, .errorDetails "Failed to analyze resume" m, []⟩ := by
  simp [analyze, hx]

theorem analyze_blank {h : Host} {file : File} {t : String}
    (hx : extractText h file = .ok t) (hb : isBlank t = true) :
    analyze h (some file) = ⟨400, .error "Could not extract text from file", []⟩ := by
  simp [analyze, hx, hb]

theorem analyze_model_error {h : Host} {file : File} {t m : String}
    (hx : extractText h file = .ok t) (hb : isBlank t = false)
    (hg : h.generateContent (prompt t) = .error m) :
    analyze h (some file)
      = ⟨500, .errorDetails "Failed to analyze resume" m, [prompt t]⟩ := by
  simp [analyze, hx, hb, hg]

theorem analyze_recover_error {h : Host} {file : File} {t text e : String}
    (hx : extractText h file = .ok t) (hb : isBlank t = false)
    (hg : h.generateContent (prompt t) = .ok text) (hr : recover h text = .error e) :
    analyze h (some file) = ⟨500, .error "AI returned invalid JSON format", [prompt t]⟩ := by
  simp [analyze, hx, hb, hg, hr]

theorem analyze_recover_ok {h : Host} {file : File} {t text : String} {v : Json}
    (hx : extractText h file = .ok t) (hb : isBlank t = false)
    (hg : h.generateContent (prompt t) = .ok text) (hr : recover h text = .ok v) :
    analyze h (some file) = ⟨200, .success v, [prompt t]⟩ := by
  simp [analyze, hx, hb, hg, hr]

theorem extractText_error_message {h : Host} {file : File} {m : String}
    (hx : extractText h file = .error m) : m = "Failed to parse PDF file" := by
  unfold extractText at hx
  dsimp only at hx
  split at hx
  · cases hp : h.pdfParse file.buffer with
    | error e =>
      rw [hp] at hx
      exact (Except.error.inj hx).symm
    | ok o =>
      cases o with
      | none =>
        rw [hp] at hx
        exact (Except.error.inj hx).symm
      | some text =>
        rw [hp] at hx
        dsimp only at hx
        split at hx
        · exact (Except.error.inj hx).symm
        · exact absurd hx (by simp)
  · exact absurd hx (by simp)

/-! ## Claims on the upload filter and the extraction -/

/-- C1, as stated, fails: a file named `CV.PDF` declared as
`application/octet-stream` is accepted, although its media type is none of the
two allowed ones and its name ends neither in `.pdf` nor in `.txt`. -/
theorem fileFilter_upper_case_name :
    fileFilter refHost ⟨"application/octet-stream", "CV.PDF", []⟩ = .ok true ∧
      ¬ ("application/octet-stream" = "application/pdf" ∨
          "application/octet-stream" = "text/plain" ∨
          endsWith "CV.PDF" ".pdf" = true ∨ endsWith "CV.PDF" ".txt" = true) :=
  ⟨rfl, by decide⟩

/-- C1 (amended): the upload filter accepts a file if and only if its media
type is `application/pdf` or `text/plain`, or its lower-cased name ends with
`.pdf` or `.txt`; every other file is rejected with the error
`Only PDF and TXT files are allowed`. -/
theorem fileFilter_accepts_iff (h : Host) (file : File) :
    (fileFilter h file = .ok true ↔
      (file.mimetype = "application/pdf" ∨ file.mimetype = "text/plain" ∨
        endsWith (h.toLowerCase file.originalname) ".pdf" = true ∨
        endsWith (h.toLowerCase file.originalname) ".txt" = true)) ∧
    (fileFilter h file ≠ .ok true ↔
      fileFilter h file = .error "Only PDF and TXT files are allowed") := by
  unfold fileFilter
  by_cases h1 : file.mimetype = "application/pdf"
  · simp [allowedTypes, h1]
  · by_cases h2 : file.mimetype = "text/plain"
    · simp [allowedTypes, h2]
    · by_cases h3 : endsWith (h.toLowerCase file.originalname) ".pdf" = true
      · simp [allowedTypes, h3]
      · by_cases h4 : endsWith (h.toLowerCase file.originalname) ".txt" = true
        · simp [allowedTypes, h4]
        · simp [allowedTypes, h1, h2, h3, h4]

/-- Witness for C1 (amended): a text file is accepted, an image is rejected. -/
theorem fileFilter_accepts_iff_witness :
    fileFilter refHost ⟨"text/plain", "resume.txt", janeDoe⟩ = .ok true ∧
      fileFilter refHost ⟨"image/png", "photo.png", []⟩
        = .error "Only PDF and TXT files are allowed" :=
  ⟨(fileFilter_accepts_iff refHost ⟨"text/plain", "resume.txt", janeDoe⟩).1.mpr
      (Or.inr (Or.inl rfl)),
    (fileFilter_accepts_iff refHost ⟨"image/png", "photo.png", []⟩).2.mp
      (by
        intro hacc
        have hc := (fileFilter_accepts_iff refHost ⟨"image/png", "photo.png", []⟩).1.mp hacc
        revert hc
        decide)⟩

/-- C2, as stated, fails: a file declared as `text/plain` whose name ends in
`.pdf`, and a file whose name ends in `.txt` declared as `application/pdf`,
are both handed to the PDF decoder, and extraction fails when it rejects the
buffer. -/
theorem extractText_mixed_signals :
    extractText refHost ⟨"text/plain", "resume.pdf", janeDoe⟩
        = .error "Failed to parse PDF file" ∧
      extractText refHost ⟨"application/pdf", "resume.txt", janeDoe⟩
        = .error "Failed to parse PDF file" ∧
      refHost.utf8Decode janeDoe = "Jane Doe" :=
  ⟨rfl, rfl, rfl⟩

/-- C2 (amended): for every file whose media type is not `application/pdf`
and whose lower-cased name does not end in `.pdf`, and for every buffer,
`extractText` succeeds and returns exactly the UTF-8 decoding of the buffer,
whatever the PDF decoder would do. -/
theorem extractText_plain (h : Host) (file : File)
    (hm : file.mimetype ≠ "application/pdf")
    (hn : endsWith (h.toLowerCase file.originalname) ".pdf" = false) :
    extractText h file = .ok (h.utf8Decode file.buffer) ∧
      ∀ pdf, extractText ⟨h.toLowerCase, h.utf8Decode, pdf, h.generateContent, h.jsonParse⟩ file
        = .ok (h.utf8Decode file.buffer) := by
  constructor
  · simp [extractText, hm, hn]
  · intro pdf
    simp [extractText, hm, hn]

/-- Witness for C2 (amended): a text file decodes to its text. -/
theorem extractText_plain_witness :
    extractText refHost ⟨"text/plain", "resume.txt", janeDoe⟩ = .ok "Jane Doe" :=
  (extractText_plain refHost ⟨"text/plain", "resume.txt", janeDoe⟩ (by decide) (by decide)).1

/-- C6: for every file dispatched to the PDF branch, if the PDF decoder raises
a fault, or returns a text that is absent, empty or made of whitespace only,
`extractText` throws; hence every value the PDF branch returns is the text of
the decoder and has a non-empty trimmed content. -/
theorem extractText_pdf_failure (h : Host) (file : File)
    (hpdf : file.mimetype = "application/pdf" ∨
      endsWith (h.toLowerCase file.originalname) ".pdf" = true) :
    (((∃ m, h.pdfParse file.buffer = .error m) ∨ h.pdfParse file.buffer = .ok none ∨
        (∃ t, h.pdfParse file.buffer = .ok (some t) ∧ ∀ c ∈ t.data, isWhiteSpace c = true)) →
      extractText h file = .error "Failed to parse PDF file") ∧
    (∀ v, extractText h file = .ok v →
      h.pdfParse file.buffer = .ok (some v) ∧ v ≠ "" ∧ trim v ≠ "" ∧
        ∃ c ∈ v.data, isWhiteSpace c = false) := by
  have hc : (decide (file.mimetype = "application/pdf") ||
      endsWith (h.toLowerCase file.originalname) ".pdf") = true := by
    rcases hpdf with e | e <;> simp [e]
  constructor
  · rintro (⟨m, hm⟩ | hnone | ⟨t, ht, hw⟩)
    · simp [extractText, hc, hm]
    · simp [extractText, hc, hnone]
    · have hb := isBlank_of_all_whiteSpace hw
      unfold isBlank at hb
      simp only [extractText, hc, ht, if_true, hb]
  · intro v hv
    unfold extractText at hv
    dsimp only at hv
    rw [if_pos hc] at hv
    cases hp : h.pdfParse file.buffer with
    | error e =>
      rw [hp] at hv
      exact absurd hv (by simp)
    | ok o =>
      cases o with
      | none =>
        rw [hp] at hv
        exact absurd hv (by simp)
      | some text =>
        rw [hp] at hv
        dsimp only at hv
        split at hv
        · exact absurd hv (by simp)
        rename_i hnb
        have hvt : text = v := Except.ok.inj hv
        subst hvt
        have hb : isBlank text = false := by
          unfold isBlank
          simpa using hnb
        refine ⟨rfl, ?_, ?_, ?_⟩
        · intro e
          rw [e] at hb
          exact absurd hb (by decide)
        · intro e
          simp [isBlank, e] at hb
        · by_contra hall
          push_neg at hall
          have : isBlank text = true :=
            isBlank_of_all_whiteSpace (fun c hcm => by simpa using hall c hcm)
          rw [this] at hb
          exact absurd hb (by simp)

/-- Witness for C6: a scanned PDF, whose text layer is a run of line breaks. -/
theorem extractText_pdf_failure_witness :
    extractText (stubHost (.ok (some "\n\n")) (.error "fetch failed"))
        ⟨"application/pdf", "scan.pdf", []⟩
      = .error "Failed to parse PDF file" :=
  (extractText_pdf_failure (stubHost (.ok (some "\n\n")) (.error "fetch failed"))
    ⟨"application/pdf", "scan.pdf", []⟩ (Or.inl rfl)).1
    (Or.inr (Or.inr ⟨"\n\n", rfl, by decide⟩))

/-! ## Claims on the handler -/

/-- C7, as stated, fails: an empty buffer declared as plain text whose name
ends in `.pdf` is handed to the PDF decoder, which rejects it, and the handler
answers status 500 with details `Failed to parse PDF file`, not status 400. -/
theorem analyze_empty_buffer_pdf_name :
    extractText refHost ⟨"text/plain", "resume.pdf", []⟩
        = .error "Failed to parse PDF file" ∧
      analyze refHost (some ⟨"text/plain", "resume.pdf", []⟩)
        = ⟨500, .errorDetails "Failed to analyze resume" "Failed to parse PDF file", []⟩ ∧
      (analyze refHost (some ⟨"text/plain", "resume.pdf", []⟩)).status ≠ 400 :=
  ⟨rfl, rfl, by decide⟩

/-- C7 (amended): for every uploaded file whose extracted text is empty or made
of whitespace only, the handler answers status 400 with the body
`Could not extract text from file` and sends no prompt to the model; this is
so in particular for an empty buffer declared as plain text whose lower-cased
name does not end in `.pdf`, the decoding of the empty buffer being the empty
string. -/
theorem analyze_empty_extraction (h : Host) (file : File) :
    (∀ t, extractText h file = .ok t → (∀ c ∈ t.data, isWhiteSpace c = true) →
      analyze h (some file) = ⟨400, .error "Could not extract text from file", []⟩) ∧
    (file.mimetype = "text/plain" →
      endsWith (h.toLowerCase file.originalname) ".pdf" = false →
      file.buffer = [] → h.utf8Decode [] = "" →
      analyze h (some file) = ⟨400, .error "Could not extract text from file", []⟩) := by
  constructor
  · intro t hx hw
    exact analyze_blank hx (isBlank_of_all_whiteSpace hw)
  · intro hm hn hb hd
    have hne : file.mimetype ≠ "application/pdf" := by
      rw [hm]
      decide
    have hx : extractText h file = .ok "" := by
      simp [extractText, hne, hn, hb, hd]
    exact analyze_blank hx (by decide)

/-- Witness for C7 (amended): an empty buffer declared as plain text and named
`resume.txt`, and a text file holding spaces and a line break. -/
theorem analyze_empty_extraction_witness :
    analyze refHost (some ⟨"text/plain", "resume.txt", []⟩)
        = ⟨400, .error "Could not extract text from file", []⟩ ∧
      analyze refHost (some ⟨"text/plain", "resume.txt", [0x20, 0x0a, 0x20]⟩)
        = ⟨400, .error "Could not extract text from file", []⟩ :=
  ⟨(analyze_empty_extraction refHost ⟨"text/plain", "resume.txt", []⟩).2 rfl (by decide) rfl rfl,
    (analyze_empty_extraction refHost ⟨"text/plain", "resume.txt", [0x20, 0x0a, 0x20]⟩).1
      " \n " rfl (by decide)⟩

/-- C8: the code breaks the claim at a scanned PDF, whose text layer holds line
breaks only. Extraction fails and the handler answers status 500 with details
`Failed to parse PDF file`, outside the range 400 to 499: the throw for a text
layer without text sits inside the `try` whose own `catch` replaces it, and the
route only has its catch-all for it. The same text in a plain-text file
reaches the empty-text check of the handler and is answered with status 400. -/
theorem analyze_scanned_pdf :
    extractText (stubHost (.ok (some "\n\n")) (.error "fetch failed"))
        ⟨"application/pdf", "scan.pdf", []⟩ = .error "Failed to parse PDF file" ∧
      analyze (stubHost (.ok (some "\n\n")) (.error "fetch failed"))
        (some ⟨"application/pdf", "scan.pdf", []⟩)
        = ⟨500, .errorDetails "Failed to analyze resume" "Failed to parse PDF file", []⟩ ∧
      ¬ (400 ≤ (analyze (stubHost (.ok (some "\n\n")) (.error "fetch failed"))
            (some ⟨"application/pdf", "scan.pdf", []⟩)).status ∧
          (analyze (stubHost (.ok (some "\n\n")) (.error "fetch failed"))
            (some ⟨"application/pdf", "scan.pdf", []⟩)).status ≤ 499) ∧
      analyze (stubHost (.ok (some "\n\n")) (.error "fetch failed"))
        (some ⟨"text/plain", "scan.txt", [0x0a, 0x0a]⟩)
        = ⟨400, .error "Could not extract text from file", []⟩ :=
  ⟨rfl, rfl, by decide, rfl⟩

/-- The status classes of the handler as the code has them: an empty extraction
is answered with status 400; a failed extraction is answered with status 500
and the body `Failed to analyze resume` with details `Failed to parse PDF file`;
and the handler answers status 500 exactly when extraction fails, the model
client fails, or the reply cannot be decoded. -/
theorem analyze_status_classes (h : Host) (file : File) :
    (∀ t, extractText h file = .ok t → isBlank t = true →
      analyze h (some file) = ⟨400, .error "Could not extract text from file", []⟩) ∧
    (∀ m, extractText h file = .error m →
      analyze h (some file)
        = ⟨500, .errorDetails "Failed to analyze resume" "Failed to parse PDF file", []⟩) ∧
    ((analyze h (some file)).status = 500 ↔
      ((∃ m, extractText h file = .error m) ∨
        (∃ t m, extractText h file = .ok t ∧ isBlank t = false ∧
          h.generateContent (prompt t) = .error m) ∨
        (∃ t text e, extractText h file = .ok t ∧ isBlank t = false ∧
          h.generateContent (prompt t) = .ok text ∧ recover h text = .error e))) := by
  refine ⟨fun t hx hb => analyze_blank hx hb, ?_, ?_⟩
  · intro m hx
    have hm := extractText_error_message hx
    subst hm
    exact analyze_extract_error hx
  · cases hx : extractText h file with
    | error m => simp [analyze_extract_error hx]
    | ok t =>
      cases hb : isBlank t with
      | true => simp [analyze_blank hx hb, hb]
      | false =>
        cases hg : h.generateContent (prompt t) with
        | error m => simp [analyze_model_error hx hb hg, hb, hg]
        | ok text =>
          cases hr : recover h text with
          | error e => simp [analyze_recover_error hx hb hg hr, hb, hg, hr]
          | ok v => simp [analyze_recover_ok hx hb hg hr, hb, hg, hr]

/-- An instance of the status classes: a PDF the decoder rejects is answered
with status 500. -/
theorem analyze_status_classes_witness :
    analyze refHost (some ⟨"application/pdf", "resume.pdf", janeDoe⟩)
      = ⟨500, .errorDetails "Failed to analyze resume" "Failed to parse PDF file", []⟩ :=
  (analyze_status_classes refHost ⟨"application/pdf", "resume.pdf", janeDoe⟩).2.1
    "Failed to parse PDF file" rfl

/-- C4, as stated, fails: when the model replies with the empty object, recovery
succeeds and the handler answers success with an analysis that has none of the
fields of the schema. -/
theorem analyze_empty_object :
    analyze (stubHost (.error "Invalid PDF structure") (.ok "\x7b\x7d"))
        (some ⟨"text/plain", "resume.txt", janeDoe⟩)
      = ⟨200, .success (.obj []), [prompt "Jane Doe"]⟩ ∧
      conformsToSchema (.obj []) = false :=
  ⟨rfl, rfl⟩

/-- C4 (amended): for every raw model response on which the recovery step
succeeds, the handler answers status 200 with `success` and an analysis that is
exactly the value the decoder returned for the candidate, whatever its shape;
no schema is checked and nothing is filled in. -/
theorem analyze_success_is_decoded (h : Host) (file : File) (t text : String) (v : Json)
    (hx : extractText h file = .ok t) (hb : isBlank t = false)
    (hg : h.generateContent (prompt t) = .ok text) (hr : recover h text = .ok v) :
    analyze h (some file) = ⟨200, .success v, [prompt t]⟩ ∧
      h.jsonParse (candidate text) = .ok v := by
  refine ⟨analyze_recover_ok hx hb hg hr, ?_⟩
  rw [← recover_eq]
  exact hr

/-- Witness for C4 (amended): a reply holding a number is passed on as it is. -/
theorem analyze_success_is_decoded_witness :
    analyze (stubHost (.error "Invalid PDF structure") (.ok "\x7b\"overall_score\": 250\x7d"))
        (some ⟨"text/plain", "resume.txt", janeDoe⟩)
      = ⟨200, .success (.obj [("overall_score", .num ⟨250, 0⟩)]), [prompt "Jane Doe"]⟩ :=
  (analyze_success_is_decoded
    (stubHost (.error "Invalid PDF structure") (.ok "\x7b\"overall_score\": 250\x7d"))
    ⟨"text/plain", "resume.txt", janeDoe⟩ "Jane Doe" "\x7b\"overall_score\": 250\x7d" _
    rfl (by decide) rfl rfl).1

/-- C5: for every raw model response whose candidate (the brace span when the
expression matches, the whole text otherwise) the decoder rejects, the handler
answers status 500 with the fixed body `AI returned invalid JSON format`, in
which the raw response does not appear; when the expression does not match,
the candidate is the whole text. -/
theorem analyze_invalid_json (h : Host) (file : File) (t text e : String)
    (hx : extractText h file = .ok t) (hb : isBlank t = false)
    (hg : h.generateContent (prompt t) = .ok text)
    (hbad : h.jsonParse (candidate text) = .error e) :
    analyze h (some file) = ⟨500, .error "AI returned invalid JSON format", [prompt t]⟩ ∧
      (jsonMatch text = none → candidate text = text) := by
  constructor
  · apply analyze_recover_error hx hb hg (e := e)
    rw [recover_eq]
    exact hbad
  · intro hn
    simp [candidate, hn]

/-- Witness for C5: a refusal in plain prose, without braces. -/
theorem analyze_invalid_json_witness :
    analyze (stubHost (.error "Invalid PDF structure") (.ok "I cannot analyze this file."))
        (some ⟨"text/plain", "resume.txt", janeDoe⟩)
      = ⟨500, .error "AI returned invalid JSON format", [prompt "Jane Doe"]⟩ :=
  (analyze_invalid_json
    (stubHost (.error "Invalid PDF structure") (.ok "I cannot analyze this file."))
    ⟨"text/plain", "resume.txt", janeDoe⟩ "Jane Doe" "I cannot analyze this file." "SyntaxError"
    rfl (by decide) rfl rfl).1

/-! ## Claim on the prompt -/

theorem jsLength_append (a b : String) : jsLength (a ++ b) = jsLength a + jsLength b := by
  simp [jsLength, String.data_append]

/-- C9: for every text `t` the prompt is `promptHead ++ t ++ promptTail`, two
fixed strings around `t`; so `t` is a contiguous substring of the prompt, the
length of the prompt is the sum of the three lengths, and two different texts
give two different prompts. -/
theorem prompt_shape (t : String) :
    prompt t = promptHead ++ t ++ promptTail ∧
      t.data <:+: (prompt t).data ∧
      jsLength (prompt t) = jsLength promptHead + jsLength t + jsLength promptTail ∧
      (prompt t).length = promptHead.length + t.length + promptTail.length ∧
      Function.Injective prompt := by
  have hp : ∀ u, prompt u = promptHead ++ u ++ promptTail := fun _ => rfl
  refine ⟨hp t, ⟨promptHead.data, promptTail.data, ?_⟩, ?_, ?_, ?_⟩
  · rw [hp]
    simp [String.data_append]
  · rw [hp, jsLength_append, jsLength_append]
  · rw [hp]
    simp [String.length_append]
  · intro a b hab
    rw [hp, hp] at hab
    have hd := congrArg String.data hab
    simp only [String.data_append, List.append_assoc] at hd
    have h1 := List.append_cancel_left hd
    have h2 := List.append_cancel_right h1
    exact String.ext h2

end ResumeAnalyzer
